import Mathlib

/-!
Verification of the KSM-to-USC score import core (src/importer.rs,
src/importer_funcs.rs, src/main.rs) against its specification.

Shallow embedding conventions:
- Rust u32 values are Nat with the 2^32 bound enforced where the source
  enforces it (string parsing rejects out-of-range input).
- Rust f64 values are modelled as exact rationals; the float literal
  grammar of f64 from_str is embedded for finite decimal/exponent
  literals, and the special spellings inf, infinity and nan fall outside
  the rational model and are treated as unparsable.  No claim under
  scrutiny depends on them.
- Strings are processed as their character lists; Rust str::split(pat)
  with a one-character pattern is the structural splitChar below, which
  splits at every occurrence and never returns an empty list.
- Filesystem paths are lists of component strings; the filesystem and
  the database are explicit parameters (an existence predicate, a
  contents map, an insert-outcome function).
- Fallible Rust code returns Except; branches that panic in Rust
  (unwrap on None, slice index out of bounds) are a distinct
  constructor, never silently collapsed into errors.
- The async unfold stream of run_importer is embedded as a step
  function on the driver state plus a fuel-indexed trace; the fuel
  budget (number of enumerated files + 3) is provably sufficient: the
  structural theorems below establish each produced event list in
  full, ending at the stream's terminal sentinel, for every fuel at or
  beyond the budget.
-/

attribute [local semireducible] Rat.mul Rat.inv Rat.add Rat.sub

set_option maxRecDepth 20000

namespace KsmImport

/-- The parsed score record (struct KsmScore, importer.rs lines 22-30). -/
structure KsmScore where
  score : Nat
  crit : Nat
  near : Nat
  miss : Nat
  gauge : ℚ
  badge : Nat
  hard : Bool
deriving Repr, DecidableEq

/-- Outcome of KsmScore::from_str.  ok and err mirror the Ok/Err returns;
panicked marks the branches where the Rust code panics (unwrap on a None
value, index out of bounds) instead of returning. -/
inductive ParseResult where
  | ok (s : KsmScore)
  | err (msg : String)
  | panicked (msg : String)
deriving Repr, DecidableEq

/-- Tests whether the first list is an initial segment of the second
(Rust str::starts_with on the underlying characters). -/
def isPrefixChars : List Char → List Char → Bool
  | [], _ => true
  | _ :: _, [] => false
  | p :: ps, c :: cs => p == c && isPrefixChars ps cs

/-- Rust str::split with a one-character pattern: splits at every
occurrence of sep; always returns at least one (possibly empty) piece. -/
def splitChar (sep : Char) : List Char → List (List Char)
  | [] => [[]]
  | c :: cs =>
    let r := splitChar sep cs
    if c == sep then [] :: r
    else
      match r with
      | [] => [[c]]
      | h :: t => (c :: h) :: t

/-- Digit run to a natural number, most significant first. -/
def digitsToNat (cs : List Char) : Nat :=
  cs.foldl (fun a c => a * 10 + (c.toNat - 48)) 0

/-- Rust str::parse::<u32>: an optional leading plus sign, then a nonempty
run of ASCII digits whose value fits in 32 bits; anything else is an
error (modelled as none). -/
def parseU32 (s : List Char) : Option Nat :=
  let cs :=
    match s with
    | '+' :: rest => rest
    | cs => cs
  if cs.isEmpty then none
  else if cs.all Char.isDigit then
    let n := digitsToNat cs
    if n < 4294967296 then some n else none
  else none

/-- Splits a char list at the first exponent marker of a float literal. -/
def splitExp : List Char → List Char × Option (List Char)
  | [] => ([], none)
  | c :: cs =>
    if c == 'e' || c == 'E' then ([], some cs)
    else
      let r := splitExp cs
      (c :: r.1, r.2)

/-- Consumes an optional sign; returns (negative, rest). -/
def takeSign : List Char → Bool × List Char
  | '+' :: cs => (false, cs)
  | '-' :: cs => (true, cs)
  | cs => (false, cs)

/-- Mantissa of a float literal: digits, digits '.' digits?, or '.' digits. -/
def parseMantissa (cs : List Char) : Option ℚ :=
  match splitChar '.' cs with
  | [intPart] =>
    if intPart.isEmpty then none
    else if intPart.all Char.isDigit then some (digitsToNat intPart) else none
  | [intPart, fracPart] =>
    if intPart.isEmpty && fracPart.isEmpty then none
    else if intPart.all Char.isDigit && fracPart.all Char.isDigit then
      some ((digitsToNat intPart : ℚ) +
        (digitsToNat fracPart : ℚ) / (10 : ℚ) ^ fracPart.length)
    else none
  | _ => none

/-- Exponent of a float literal: optional sign then nonempty digits. -/
def parseExp (cs : List Char) : Option ℤ :=
  let sr := takeSign cs
  if sr.2.isEmpty then none
  else if sr.2.all Char.isDigit then
    let n : ℤ := digitsToNat sr.2
    some (if sr.1 then -n else n)
  else none

/-- Rust str::parse::<f64> on finite decimal literals, modelled exactly as
a rational (no rounding to binary doubles; the inf/infinity/nan
spellings are outside the model and rejected). -/
def parseF64 (s : List Char) : Option ℚ :=
  let sr := takeSign s
  let me := splitExp sr.2
  match parseMantissa me.1 with
  | none => none
  | some m =>
    match me.2 with
    | none => some (if sr.1 then -m else m)
    | some ecs =>
      match parseExp ecs with
      | none => none
      | some e =>
        let v := m * (10 : ℚ) ^ e
        some (if sr.1 then -v else v)

/-- First supported settings profile (importer.rs line 37). -/
def supportedHard : String := "hard,normal,normal,on,on,on"

/-- Second supported settings profile (importer.rs line 38). -/
def supportedNormal : String := "normal,normal,normal,on,on,on"

/-- KsmScore::from_str (importer.rs lines 35-63).  The err message strings
for numeric fields stand for the Debug rendering of the std parse
errors; their exact text is not modelled.  A line without an equals sign
makes the Rust code unwrap a None (the second parts.next()), and a stats
segment with fewer than four fields makes the stats[3] index panic; both
are the panicked constructor here, placed in the evaluation order of the
source (stats[0] is parsed before stats[3] is indexed, then stats[1]). -/
def fromStr (score_line : String) : ParseResult :=
  let cs := score_line.toList
  if ¬ (isPrefixChars supportedHard.toList cs
      || isPrefixChars supportedNormal.toList cs) then
    .err "Unsupported score entry"
  else
    match splitChar '=' cs with
    | [] => .panicked "called Option::unwrap() on a None value"
    | [_] => .panicked "called Option::unwrap() on a None value"
    | settingsStr :: statsStr :: _ =>
      let settings := splitChar ',' settingsStr
      let stats := splitChar ',' statsStr
      let hard := settings.getD 0 [] == "hard".toList
      match parseU32 (stats.getD 0 []) with
      | none => .err "invalid digit found in string"
      | some score =>
        if stats.length < 4 then .panicked "index out of bounds"
        else
          match parseF64 (stats.getD 3 []) with
          | none => .err "invalid float literal"
          | some g =>
            let gauge := g / 100
            match parseU32 (stats.getD 1 []) with
            | none => .err "invalid digit found in string"
            | some badge =>
              let miss := if badge > 1 then 0 else 1
              .ok { score := score, crit := 0, near := 0, miss := miss,
                    gauge := gauge, badge := badge, hard := hard }

/-- Run summary (struct Summary, main.rs lines 12-17); Default is all
zeroes and the empty list. -/
structure Summary where
  scores_found : Nat
  scores_imported : Nat
  fail_messages : List String
deriving Repr, DecidableEq

/-- Decidable equality for Except results, needed to evaluate concrete
driver runs. -/
instance exceptDecEq {ε α : Type} [DecidableEq ε] [DecidableEq α] :
    DecidableEq (Except ε α) := fun a b =>
  match a, b with
  | .ok x, .ok y =>
    if h : x = y then .isTrue (by rw [h]) else .isFalse (fun hc => h (by cases hc; rfl))
  | .ok _, .error _ => .isFalse (fun hc => by cases hc)
  | .error _, .ok _ => .isFalse (fun hc => by cases hc)
  | .error x, .error y =>
    if h : x = y then .isTrue (by rw [h]) else .isFalse (fun hc => h (by cases hc; rfl))

/-- One enumerated score file as the driver sees it: its textual path
(used in failure messages) and the result of File::open followed by
line reading — error carries the Debug text of the io error, ok carries
the readable lines (lines whose read fails are silently skipped by the
filter on l.is_ok() in the source, so they never appear here). -/
structure ScoreFile where
  path : String
  contents : Except String (List String)
deriving Repr, DecidableEq

/-- The external world of one run, fixed for its duration:
- dbConn: result of Connection::open (error carries the Debug text);
- dbVersion: the value of SELECT version FROM Database with
  unwrap_or_default applied, i.e. 0 when the query fails;
- scoreFiles: result of enumerate_ksm_score_files (the walkdir order is
  whatever the list order is; error carries the Debug text);
- insert: the outcome of the schema-19 inserter version_19 for a given
  record and score-file path (its filesystem and database effects are
  abstracted into this outcome function; the resolver and the hasher it
  calls are modelled separately below). -/
structure Env where
  dbConn : Except String Unit
  dbVersion : Nat
  scoreFiles : Except String (List ScoreFile)
  insert : KsmScore → String → Except String Unit

/-- What one input line contributes during the per-file iterator chain
(importer.rs lines 162-187): none when the parser panics (the panic
unwinds through the stream); otherwise the appended failure messages,
the increment of scores_imported, and the database rows written. -/
def lineOutcome (insert : KsmScore → String → Except String Unit)
    (path line : String) : Option (List String × Nat × List KsmScore) :=
  match fromStr line with
  | .panicked _ => none
  | .err e => some (["Score parse failed in \"" ++ path ++ "\": " ++ e], 0, [])
  | .ok s =>
    match insert s path with
    | .error e => some (["Score insert failed: " ++ e], 0, [])
    | .ok _ => some ([], 1, [s])

/-- Folds lineOutcome over the lines of a file, in order; each line is
fully handled before the next, exactly as the pulling iterator chain of
the source does. -/
def processLines (insert : KsmScore → String → Except String Unit)
    (path : String) : List String → Option (List String × Nat × List KsmScore)
  | [] => some ([], 0, [])
  | l :: ls =>
    match lineOutcome insert path l with
    | none => none
    | some (m, i, w) =>
      match processLines insert path ls with
      | none => none
      | some r => some (m ++ r.1, i + r.2.1, w ++ r.2.2)

/-- One Importing step's handling of the popped file (importer.rs lines
158-194): a failed open contributes one message and nothing else; an
opened file is processed line by line. -/
def processFile (insert : KsmScore → String → Except String Unit)
    (f : ScoreFile) : Option (List String × Nat) :=
  match f.contents with
  | .error e => some (["Failed to open \"" ++ f.path ++ "\": " ++ e], 0)
  | .ok lines =>
    match processLines insert f.path lines with
    | none => none
    | some r => some (r.1, r.2.1)

/-- Whether a line survives both the parse filter and the insert filter,
i.e. bumps scores_imported. -/
def lineImported (insert : KsmScore → String → Except String Unit)
    (path line : String) : Bool :=
  match fromStr line with
  | .ok s => match insert s path with | .ok _ => true | .error _ => false
  | _ => false

/-- Number of successful inserts a file contributes. -/
def fileImported (insert : KsmScore → String → Except String Unit)
    (f : ScoreFile) : Nat :=
  match f.contents with
  | .error _ => 0
  | .ok lines => lines.countP (lineImported insert f.path)

/-- The progress events of the stream (enum Progress, importer.rs lines
253-259); the f32 fraction is modelled as a rational. -/
inductive Progress where
  | started
  | advanced (p : ℚ)
  | finished (s : Summary)
  | errored (msg : String)
deriving Repr, DecidableEq

/-- The driver state (enum State, importer.rs lines 238-251).  The paths
of Ready and the connection of Importing live in Env. -/
inductive MState where
  | ready
  | importing (db_version : Nat) (score_files : List ScoreFile) (summary : Summary)
  | finished
deriving Repr, DecidableEq

/-- Result of one call of run_importer on a state: an emitted event plus
successor state, the stream's terminal sentinel (None), or a panic that
unwinds out of the future (a parser panic on some line). -/
inductive StepRes where
  | yield (p : Progress) (s : MState)
  | done
  | panicked
deriving Repr, DecidableEq

/-- One step of run_importer (importer.rs lines 100-209). -/
def step (env : Env) : MState → StepRes
  | .ready =>
    match env.dbConn, env.scoreFiles with
    | .ok _, .ok files =>
      .yield .started (.importing env.dbVersion files
        { scores_found := files.length, scores_imported := 0, fail_messages := [] })
    | .ok _, .error e => .yield (.errored e) .finished
    | .error e, .ok _ => .yield (.errored e) .finished
    | .error de, .error ke =>
      .yield (.errored ("DB Error: '" ++ de ++ "', KSM Path error: '" ++ ke ++ "'"))
        .finished
  | .importing v files summary =>
    if files.isEmpty then .yield (.finished summary) .finished
    else if v ≠ 19 then
      .yield (.errored ("Unsupported DB version: " ++ toString v)) .finished
    else
      match files.getLast? with
      | none => .panicked
      | some f =>
        let rest := files.dropLast
        match processFile env.insert f with
        | none => .panicked
        | some r =>
          .yield
            (.advanced (1 - (rest.length : ℚ) / (summary.scores_found : ℚ)))
            (.importing v rest
              { summary with
                scores_imported := summary.scores_imported + r.2,
                fail_messages := summary.fail_messages ++ r.1 })
  | .finished => .done

/-- Runs the stream for at most n steps, collecting the emitted events;
the Bool records whether a panic cut the stream short. -/
def traceN (env : Env) : Nat → MState → List Progress × Bool
  | 0, _ => ([], false)
  | Nat.succ n, s =>
    match step env s with
    | .yield p s' =>
      let r := traceN env n s'
      (p :: r.1, r.2)
    | .done => ([], false)
    | .panicked => ([], true)

/-- Step budget that provably reaches the terminal sentinel: one Ready
step, one Importing step per enumerated file, the terminal emission and
the sentinel check. -/
def fuelFor (env : Env) : Nat :=
  (match env.scoreFiles with
   | .ok fs => fs.length
   | .error _ => 0) + 3

/-- The full observable event sequence of one run of the import driver
(futures::stream::unfold of run_importer from the Ready state). -/
def trace (env : Env) : List Progress × Bool :=
  traceN env (fuelFor env) .ready

/-- The Advanced fractions the Importing loop emits while n files remain,
given the fixed total: 1 - (n-1)/total down to 1 - 0/total. -/
def ramp (total : Nat) : Nat → List Progress
  | 0 => []
  | Nat.succ n => .advanced (1 - (n : ℚ) / (total : ℚ)) :: ramp total n

/-- The fractions carried by the Advanced events of an event list. -/
def advVals (events : List Progress) : List ℚ :=
  events.filterMap fun e =>
    match e with
    | .advanced q => some q
    | _ => none

/-- Rust Path::set_extension("ksh") on one file name: if the name has an
extension (a final dot that is not its first character) the part after
that dot is replaced, otherwise ".ksh" is appended. -/
def setExtKsh (name : String) : String :=
  let cs := name.toList
  let dots := cs.enum.filterMap fun ic => if ic.2 == '.' then some ic.1 else none
  match dots.getLast? with
  | none => name ++ ".ksh"
  | some 0 => name ++ ".ksh"
  | some i => String.mk (cs.take i) ++ ".ksh"

/-- Path::with_extension("ksh") on a component list: rewrites the leaf. -/
def withExtensionKsh (p : List String) : List String :=
  match p.getLast? with
  | none => []
  | some name => p.dropLast ++ [setExtKsh name]

/-- The pure path surgery of get_score_chart_path (importer_funcs.rs
lines 17-30): replace the extension, then enumerate the components and
simultaneously drop the component at index depth-4 and rename the one at
index depth-5 to "songs".  The index comparisons are phrased additively
(i + 4 = depth), which agrees with the source's release-mode usize
arithmetic at every depth. -/
def chartTransform (score_path : List String) : List String :=
  let res := withExtensionKsh score_path
  let depth := res.length
  (res.enum.filter fun ic => ic.1 + 4 != depth).map
    fun ic => if ic.1 + 5 == depth then "songs" else ic.2

/-- The resolver contract in the spec's own words: replace the extension
with ksh; then, counting positions from the leaf with the leaf at
position 1, drop the component at position 4 and rename the component at
position 5 to the literal "songs" (position k from the leaf is index
length - k from the front). -/
def chartPathSpec (score_path : List String) : List String :=
  let r := withExtensionKsh score_path
  ((r.set (r.length - 5) "songs").eraseIdx (r.length - 4))

/-- get_score_chart_path (importer_funcs.rs lines 16-40): the surgery
above, gated on existence; ex is the filesystem's existence predicate and
the error message carries the path's textual form. -/
def get_score_chart_path (ex : List String → Bool) (score_path : List String) :
    Except String (List String) :=
  let res := chartTransform score_path
  if ex res then .ok res
  else .error ("File does not exist: \"" ++ String.intercalate "/" res ++ "\"")

/-- hash_file (importer_funcs.rs lines 47-64).  digest abstracts the
sha1 hex digest of a byte string; fs maps a path to its byte contents
(error carries the io error of File::open / read_to_end); the cache is
an association list looked up by the path's textual form, with insertion
at the front (the HashMap holds at most one binding per key, and lookup
sees the newest).  Returns the result, the updated cache, and how many
filesystem accesses were made. -/
def hash_file (digest : List Nat → String) (fs : String → Except String (List Nat))
    (cache : List (String × String)) (path : String) :
    Except String String × List (String × String) × Nat :=
  let key := path
  match List.lookup key cache with
  | some v => (.ok v, cache, 0)
  | none =>
    match fs path with
    | .error e => (.error e, cache, 1)
    | .ok buf =>
      let res := digest buf
      (.ok res, (key, res) :: cache, 1)

/-- The files of a run, empty when enumeration failed; used to state
panic-freedom of a run without quantifying over enumeration results. -/
def envFiles (env : Env) : List ScoreFile :=
  match env.scoreFiles with
  | .ok fs => fs
  | .error _ => []

/-- An inserter whose outcome is always success; used by the concrete
scenario runs below. -/
def okInsert : KsmScore → String → Except String Unit := fun _ _ => .ok ()

/-- A score file whose File::open fails. -/
def fileOpenFail : ScoreFile := ⟨"a.ksc", .error "io"⟩

/-- A second score file whose File::open fails. -/
def fileOpenFailB : ScoreFile := ⟨"b.ksc", .error "io"⟩

/-- A run whose Connection::open fails. -/
def envDbFail : Env := ⟨.error "db boom", 0, .ok [], okInsert⟩

/-- A panic-free run over one unreadable file at the supported version. -/
def envProto : Env := ⟨.ok (), 19, .ok [fileOpenFail], okInsert⟩

/-- A run at an unsupported schema version with an empty worklist. -/
def envVer20Empty : Env := ⟨.ok (), 20, .ok [], okInsert⟩

/-- A run at an unsupported schema version with one enumerated file. -/
def envVer20One : Env := ⟨.ok (), 20, .ok [fileOpenFail], okInsert⟩

/-- A supported-version run with an empty worklist. -/
def envRampEmpty : Env := ⟨.ok (), 19, .ok [], okInsert⟩

/-- A supported-version panic-free run over two files. -/
def envRampTwo : Env := ⟨.ok (), 19, .ok [fileOpenFail, fileOpenFailB], okInsert⟩

/-- A run at schema version 99 with an empty worklist. -/
def envVer99Empty : Env := ⟨.ok (), 99, .ok [], okInsert⟩

end KsmImport

namespace KsmImport

theorem step_finished (env : Env) : step env .finished = .done := rfl

theorem step_ready_ok (env : Env) (fs : List ScoreFile)
    (hdb : env.dbConn = .ok ()) (hsf : env.scoreFiles = .ok fs) :
    step env .ready = .yield .started (.importing env.dbVersion fs
      ⟨fs.length, 0, []⟩) := by
  simp [step, hdb, hsf]

theorem step_importing_nil (env : Env) (v : Nat) (summary : Summary) :
    step env (.importing v [] summary) = .yield (.finished summary) .finished := by
  simp [step]

theorem step_importing_unsupported (env : Env) (v : Nat) (files : List ScoreFile)
    (summary : Summary) (hne : files ≠ []) (hv : v ≠ 19) :
    step env (.importing v files summary) =
      .yield (.errored ("Unsupported DB version: " ++ toString v)) .finished := by
  simp [step, hne, hv]

theorem step_importing_pop (env : Env) (files : List ScoreFile) (summary : Summary)
    (f : ScoreFile) (r : List String × Nat)
    (hg : files.getLast? = some f) (hp : processFile env.insert f = some r) :
    step env (.importing 19 files summary) =
      .yield (.advanced (1 - (files.dropLast.length : ℚ) / (summary.scores_found : ℚ)))
        (.importing 19 files.dropLast
          ⟨summary.scores_found, summary.scores_imported + r.2,
           summary.fail_messages ++ r.1⟩) := by
  have hne : files ≠ [] := by
    intro h; subst h; simp at hg
  simp [step, hne, hg, hp]

theorem traceN_finished (env : Env) (n : Nat) :
    traceN env n .finished = ([], false) := by
  cases n with
  | zero => rfl
  | succ m => simp [traceN, step_finished]

theorem traceN_yield (env : Env) {s : MState} {p : Progress} {s' : MState}
    (h : step env s = .yield p s') (n : Nat) :
    traceN env (n + 1) s = (p :: (traceN env n s').1, (traceN env n s').2) := by
  simp [traceN, h]

theorem processLines_imported (insert : KsmScore → String → Except String Unit)
    (path : String) :
    ∀ (ls : List String) (r : List String × Nat × List KsmScore),
      processLines insert path ls = some r →
      r.2.1 = ls.countP (lineImported insert path) := by
  intro ls
  induction ls with
  | nil =>
    intro r h
    simp [processLines] at h
    subst h
    simp
  | cons l ls ih =>
    intro r h
    rw [processLines] at h
    rcases ho : lineOutcome insert path l with _ | o
    · rw [ho] at h; exact absurd h (by simp)
    · rw [ho] at h
      rcases hr : processLines insert path ls with _ | r'
      · rw [hr] at h; exact absurd h (by simp)
      · rw [hr] at h
        simp only [Option.some.injEq] at h
        subst h
        have htail := ih r' hr
        simp only [List.countP_cons]
        rcases hf : fromStr l with s | e | e
        · simp only [lineOutcome, hf] at ho
          rcases hi : insert s path with u | u <;>
            (rw [hi] at ho
             simp only [Option.some.injEq] at ho
             subst ho
             simp [lineImported, hf, hi, htail]
             try omega)
        · simp only [lineOutcome, hf, Option.some.injEq] at ho
          subst ho
          simp [lineImported, hf, htail]
        · simp only [lineOutcome, hf] at ho
          exact absurd ho (by simp)

theorem processFile_imported (insert : KsmScore → String → Except String Unit)
    (f : ScoreFile) (r : List String × Nat) (h : processFile insert f = some r) :
    r.2 = fileImported insert f := by
  rcases hc : f.contents with e | lines
  · simp only [processFile, hc, Option.some.injEq] at h
    subst h
    simp [fileImported, hc]
  · simp only [processFile, hc] at h
    rcases hr : processLines insert f.path lines with _ | r'
    · rw [hr] at h; exact absurd h (by simp)
    · rw [hr] at h
      simp only [Option.some.injEq] at h
      subst h
      simp only [fileImported, hc]
      exact processLines_imported insert f.path lines r' hr

theorem mem_ramp (total : Nat) :
    ∀ (n : Nat), ∀ e ∈ ramp total n, ∃ q, e = Progress.advanced q := by
  intro n
  induction n with
  | zero => intro e he; simp [ramp] at he
  | succ m ih =>
    intro e he
    rw [ramp] at he
    rcases List.mem_cons.mp he with h | h
    · exact ⟨_, h⟩
    · exact ih e h

theorem ramp_head_le (total m : Nat) :
    1 - ((m + 1 : Nat) : ℚ) / (total : ℚ) ≤ 1 - ((m : Nat) : ℚ) / (total : ℚ) := by
  have hdiv : ((m : Nat) : ℚ) / (total : ℚ) ≤ ((m + 1 : Nat) : ℚ) / (total : ℚ) := by
    rcases Nat.eq_zero_or_pos total with hT | hT
    · subst hT; simp
    · have hT' : (0 : ℚ) < (total : ℚ) := by exact_mod_cast hT
      rw [div_le_div_iff_of_pos_right hT']
      exact_mod_cast Nat.le_succ m
  linarith

theorem ramp_chain (total : Nat) :
    ∀ (n : Nat), List.Chain' (fun a b => a ≤ b) (advVals (ramp total n)) := by
  intro n
  induction n with
  | zero => simp [ramp, advVals]
  | succ m ih =>
    cases m with
    | zero => simp [ramp, advVals, List.filterMap]
    | succ k =>
      rw [ramp]
      have hstep : advVals (Progress.advanced (1 - ((k + 1 : Nat) : ℚ) / (total : ℚ)) ::
          ramp total (k + 1)) =
          (1 - ((k + 1 : Nat) : ℚ) / (total : ℚ)) :: advVals (ramp total (k + 1)) := by
        simp [advVals]
      rw [hstep]
      have hhead : advVals (ramp total (k + 1)) =
          (1 - ((k : Nat) : ℚ) / (total : ℚ)) :: advVals (ramp total k) := by
        rw [ramp]; simp [advVals]
      rw [hhead]
      rw [hhead] at ih
      exact List.chain'_cons.mpr ⟨ramp_head_le total k, ih⟩

theorem traceN_importing19 (env : Env) (k : Nat) :
    ∀ (files : List ScoreFile) (summary : Summary) (n : Nat),
      files.length = k →
      (∀ f ∈ files, (processFile env.insert f).isSome) →
      k + 2 ≤ n →
      ∃ final : Summary,
        traceN env n (.importing 19 files summary) =
          (ramp summary.scores_found k ++ [.finished final], false) ∧
        final.scores_found = summary.scores_found := by
  induction k with
  | zero =>
    intro files summary n hlen hpf hn
    have hfe : files = [] := List.length_eq_zero.mp hlen
    subst hfe
    obtain ⟨m, rfl⟩ : ∃ m, n = m + 1 := ⟨n - 1, by omega⟩
    rw [traceN_yield env (step_importing_nil env 19 summary) m, traceN_finished]
    exact ⟨summary, by simp [ramp], rfl⟩
  | succ k ih =>
    intro files summary n hlen hpf hn
    have hne : files ≠ [] := by intro h; subst h; simp at hlen
    have hg : files.getLast? = some (files.getLast hne) :=
      List.getLast?_eq_getLast files hne
    have hmem : files.getLast hne ∈ files := List.getLast_mem hne
    obtain ⟨r, hr⟩ := Option.isSome_iff_exists.mp (hpf _ hmem)
    obtain ⟨m, rfl⟩ : ∃ m, n = m + 1 := ⟨n - 1, by omega⟩
    rw [traceN_yield env (step_importing_pop env files summary _ r hg hr) m]
    have hrest : files.dropLast.length = k := by
      rw [List.length_dropLast, hlen]
      omega
    have hpf' : ∀ f ∈ files.dropLast, (processFile env.insert f).isSome := by
      intro f hf
      refine hpf f ?_
      rw [← List.dropLast_append_getLast hne]
      exact List.mem_append_left _ hf
    obtain ⟨final, hfinal, hfound⟩ :=
      ih files.dropLast ⟨summary.scores_found, summary.scores_imported + r.2,
        summary.fail_messages ++ r.1⟩ m hrest hpf' (by omega)
    refine ⟨final, ?_, hfound⟩
    rw [hfinal, ramp]
    simp [hrest]

theorem traceN_importing_any (env : Env) (v : Nat) (files : List ScoreFile)
    (summary : Summary) (n : Nat)
    (hpf : ∀ f ∈ files, (processFile env.insert f).isSome)
    (hn : files.length + 2 ≤ n) :
    ∃ mid last,
      traceN env n (.importing v files summary) = (mid ++ [last], false) ∧
      (∀ e ∈ mid, ∃ q, e = Progress.advanced q) ∧
      ((∃ s, last = Progress.finished s) ∨ (∃ m, last = Progress.errored m)) := by
  by_cases hv : v = 19
  · subst hv
    obtain ⟨final, hfinal, _⟩ :=
      traceN_importing19 env files.length files summary n rfl hpf hn
    exact ⟨ramp summary.scores_found files.length, .finished final, hfinal,
      mem_ramp _ _, Or.inl ⟨final, rfl⟩⟩
  · rcases files with _ | ⟨f, fs⟩
    · obtain ⟨m, rfl⟩ : ∃ m, n = m + 1 := ⟨n - 1, by omega⟩
      rw [traceN_yield env (step_importing_nil env v summary) m, traceN_finished]
      exact ⟨[], .finished summary, by simp, by simp, Or.inl ⟨summary, rfl⟩⟩
    · obtain ⟨m, rfl⟩ : ∃ m, n = m + 1 := ⟨n - 1, by omega⟩
      rw [traceN_yield env
        (step_importing_unsupported env v (f :: fs) summary (by simp) hv) m,
        traceN_finished]
      exact ⟨[], .errored ("Unsupported DB version: " ++ toString v),
        by simp, by simp, Or.inr ⟨_, rfl⟩⟩

theorem trace_ok (env : Env) (fs : List ScoreFile)
    (hdb : env.dbConn = .ok ()) (hsf : env.scoreFiles = .ok fs) :
    trace env =
      (Progress.started :: (traceN env (fs.length + 2)
          (.importing env.dbVersion fs ⟨fs.length, 0, []⟩)).1,
        (traceN env (fs.length + 2)
          (.importing env.dbVersion fs ⟨fs.length, 0, []⟩)).2) := by
  have hf : fuelFor env = fs.length + 3 := by simp [fuelFor, hsf]
  rw [trace, hf]
  exact traceN_yield env (step_ready_ok env fs hdb hsf) (fs.length + 2)

theorem ramp_last (total : Nat) :
    ∀ (n : Nat), 0 < n → ∃ pre, ramp total n = pre ++ [Progress.advanced 1] := by
  intro n
  induction n with
  | zero => intro h; exact absurd h (by simp)
  | succ m ih =>
    intro _
    cases m with
    | zero =>
      refine ⟨[], ?_⟩
      simp [ramp]
    | succ k =>
      obtain ⟨pre, hpre⟩ := ih (Nat.succ_pos k)
      exact ⟨Progress.advanced (1 - ((k + 1 : Nat) : ℚ) / (total : ℚ)) :: pre, by
        rw [ramp, hpre]; rfl⟩

theorem exists_last_five {α : Type} (l : List α) (h : 5 ≤ l.length) :
    ∃ t a b c d e, l = t ++ [a, b, c, d, e] := by
  obtain ⟨t, s, hts, hs5⟩ : ∃ t s, l = t ++ s ∧ s.length = 5 :=
    ⟨l.take (l.length - 5), l.drop (l.length - 5),
      (List.take_append_drop _ l).symm, by rw [List.length_drop]; omega⟩
  rcases s with _ | ⟨a, _ | ⟨b, _ | ⟨c, _ | ⟨d, _ | ⟨e, rest⟩⟩⟩⟩⟩ <;> simp at hs5
  subst hs5
  exact ⟨t, a, b, c, d, e, hts⟩

theorem set_at_len {α : Type} (t l : List α) (v : α) :
    (t ++ l).set t.length v = t ++ l.set 0 v := by
  induction t with
  | nil => simp
  | cons x t ih => simp [List.set, ih]

theorem eraseIdx_at_len {α : Type} (t : List α) (l : List α) (k : Nat) :
    (t ++ l).eraseIdx (t.length + k) = t ++ l.eraseIdx k := by
  induction t with
  | nil => simp
  | cons x t ih =>
    have : (x :: t).length + k = (t.length + k) + 1 := by
      simp only [List.length_cons]
      omega
    rw [this]
    simp [List.eraseIdx, ih]

theorem withExtensionKsh_length (p : List String) (h : p ≠ []) :
    (withExtensionKsh p).length = p.length := by
  unfold withExtensionKsh
  rcases hg : p.getLast? with _ | name
  · exact absurd (List.getLast?_eq_none_iff.mp hg) h
  · have hp : 1 ≤ p.length := by
      rcases p with _ | _
      · exact absurd rfl h
      · simp
    simp [List.length_dropLast]
    omega

theorem chart_core (a b c d e : String) :
    ∀ (t : List String) (n : Nat),
      ((List.enumFrom n (t ++ [a, b, c, d, e])).filter
          (fun ic => ic.1 + 4 != n + (t.length + 5))).map
        (fun ic => if ic.1 + 5 == n + (t.length + 5) then "songs" else ic.2)
      = t ++ ["songs", c, d, e] := by
  intro t
  induction t with
  | nil =>
    intro n
    have h0 : ((n + 4 != n + (5 : Nat))) = true := by
      simp only [bne_iff_ne, ne_eq]
      omega
    have h1 : ((n + 1 + 4 != n + (5 : Nat))) = false := by
      simp only [bne_eq_false_iff_eq]
      try omega
    have h2 : ((n + 2 + 4 != n + (5 : Nat))) = true := by
      simp only [bne_iff_ne, ne_eq]
      omega
    have h3 : ((n + 3 + 4 != n + (5 : Nat))) = true := by
      simp only [bne_iff_ne, ne_eq]
      omega
    have h4 : ((n + 4 + 4 != n + (5 : Nat))) = true := by
      simp only [bne_iff_ne, ne_eq]
      omega
    have g0 : ((n + 5 == n + (5 : Nat))) = true := by
      simp
    have g2 : ((n + 2 + 5 == n + (5 : Nat))) = false := by
      simp only [beq_eq_false_iff_ne, ne_eq]
      omega
    have g3 : ((n + 3 + 5 == n + (5 : Nat))) = false := by
      simp only [beq_eq_false_iff_ne, ne_eq]
      omega
    have g4 : ((n + 4 + 5 == n + (5 : Nat))) = false := by
      simp only [beq_eq_false_iff_ne, ne_eq]
      omega
    simp only [List.nil_append, List.length_nil, Nat.zero_add, List.enumFrom,
      List.filter, List.map, h0, h1, h2, h3, h4]
    simp only [List.filter, List.map, g0, g2, g3, g4]
    simp
  | cons x t ih =>
    intro n
    have hD : n + ((x :: t).length + 5) = (n + 1) + (t.length + 5) := by
      simp only [List.length_cons]
      omega
    rw [List.cons_append, List.enumFrom, hD]
    have hkeep : ((n + 4 != n + 1 + (t.length + 5))) = true := by
      simp only [bne_iff_ne, ne_eq]
      omega
    have hx : ((n + 5 == n + 1 + (t.length + 5))) = false := by
      simp only [beq_eq_false_iff_ne, ne_eq]
      omega
    simp only [List.filter, hkeep, List.map, hx]
    rw [ih (n + 1)]
    simp

theorem chartTransform_eq_spec (p : List String) (h5 : 5 ≤ p.length) :
    chartTransform p = chartPathSpec p := by
  have hne : p ≠ [] := by
    intro h
    subst h
    simp at h5
  have hlen : (withExtensionKsh p).length = p.length := withExtensionKsh_length p hne
  obtain ⟨t, a, b, c, d, e, hr⟩ :=
    exists_last_five (withExtensionKsh p) (by omega)
  have hL : (t ++ [a, b, c, d, e]).length = t.length + 5 := by simp
  simp only [chartTransform, chartPathSpec]
  rw [hr, hL]
  have h1 : t.length + 5 - 5 = t.length := by omega
  have h2 : t.length + 5 - 4 = t.length + 1 := by omega
  rw [h1, h2, set_at_len]
  have h3 : ([a, b, c, d, e].set 0 "songs") = ["songs", b, c, d, e] := rfl
  rw [h3, eraseIdx_at_len]
  have h4 : (["songs", b, c, d, e].eraseIdx 1) = ["songs", c, d, e] := rfl
  rw [h4]
  have hcode := chart_core a b c d e t 0
  rw [Nat.zero_add] at hcode
  rw [List.enum]
  exact hcode

/-- Claim C1: for every input line that begins with one of the two
supported settings prefixes and whose segments and numeric fields are
well-formed (there is an equals sign, the stats segment has at least
four comma-separated fields, the first and second stats fields parse as
unsigned integers and the fourth as a float), the parser returns a
record whose isHardGauge is true exactly when the first settings field
equals "hard", whose score and badgeTier are the parsed first and second
stats fields, whose gaugePercent is the parsed fourth stats field
divided by 100, whose miss is 0 when badgeTier > 1 and 1 otherwise, and
whose crit and near are 0. -/
theorem parser_wellformed_line (line : String) (s0 s1 : List Char)
    (rest : List (List Char)) (sc bd : Nat) (g : ℚ)
    (hpre : (isPrefixChars supportedHard.toList line.toList
        || isPrefixChars supportedNormal.toList line.toList) = true)
    (hsplit : splitChar '=' line.toList = s0 :: s1 :: rest)
    (hlen : 4 ≤ (splitChar ',' s1).length)
    (h0 : parseU32 ((splitChar ',' s1).getD 0 []) = some sc)
    (h1 : parseU32 ((splitChar ',' s1).getD 1 []) = some bd)
    (h3 : parseF64 ((splitChar ',' s1).getD 3 []) = some g) :
    fromStr line = .ok
      { score := sc, crit := 0, near := 0,
        miss := if bd > 1 then 0 else 1,
        gauge := g / 100, badge := bd,
        hard := (splitChar ',' s0).getD 0 [] == "hard".toList } := by
  have hnlt : ¬ (splitChar ',' s1).length < 4 := by omega
  simp only [fromStr, hsplit, hpre, h0, h1, h3, hnlt]
  simp

/-- Witness for parser_wellformed_line at the sample line of the spec's
Scenario A. -/
theorem parser_wellformed_line_witness :
    fromStr "hard,normal,normal,on,on,on=1000000,2,0,98.50" =
      .ok ⟨1000000, 0, 0, 0, 197 / 200, 2, true⟩ := by
  have h := parser_wellformed_line "hard,normal,normal,on,on,on=1000000,2,0,98.50"
    "hard,normal,normal,on,on,on".toList "1000000,2,0,98.50".toList []
    1000000 2 (197 / 2)
    (by decide) (by decide) (by decide) (by decide) (by decide) (by decide)
  rw [h]
  decide

/-- Counterexample to claim C5 as stated: a line that begins with a
supported settings prefix but carries no equals sign drives the parser
into unwrap on a None value — a panic, not an error return. -/
theorem missing_equals_panics :
    fromStr "hard,normal,normal,on,on,on" =
      .panicked "called Option::unwrap() on a None value" := by decide

/-- Claim C5 (amended): for a line that begins with a supported settings
prefix, an unparsable numeric field makes the parser return an error
result, and the error path never reaches a panicking branch; but a
missing equals sign panics via unwrap on None, and a stats segment with
fewer than four fields (whose first field is numeric) panics via index
out of bounds, instead of returning an error. -/
theorem malformed_line_behavior (line : String) (s0 s1 : List Char)
    (rest : List (List Char))
    (hpre : (isPrefixChars supportedHard.toList line.toList
        || isPrefixChars supportedNormal.toList line.toList) = true) :
    (splitChar '=' line.toList = [s0] →
        fromStr line = .panicked "called Option::unwrap() on a None value") ∧
    (splitChar '=' line.toList = s0 :: s1 :: rest →
      (parseU32 ((splitChar ',' s1).getD 0 []) = none →
          fromStr line = .err "invalid digit found in string") ∧
      (∀ sc, parseU32 ((splitChar ',' s1).getD 0 []) = some sc →
          (splitChar ',' s1).length < 4 →
          fromStr line = .panicked "index out of bounds") ∧
      (∀ sc, parseU32 ((splitChar ',' s1).getD 0 []) = some sc →
          4 ≤ (splitChar ',' s1).length →
          parseF64 ((splitChar ',' s1).getD 3 []) = none →
          fromStr line = .err "invalid float literal") ∧
      (∀ sc g, parseU32 ((splitChar ',' s1).getD 0 []) = some sc →
          4 ≤ (splitChar ',' s1).length →
          parseF64 ((splitChar ',' s1).getD 3 []) = some g →
          parseU32 ((splitChar ',' s1).getD 1 []) = none →
          fromStr line = .err "invalid digit found in string")) := by
  constructor
  · intro hs
    simp only [fromStr, hs, hpre]
    simp
  · intro hs
    refine ⟨?_, ?_, ?_, ?_⟩
    · intro h0
      simp only [fromStr, hs, hpre, h0]
      simp
    · intro sc h0 hlt
      simp only [fromStr, hs, hpre, h0, hlt]
      simp
    · intro sc h0 hge h3
      have hnlt : ¬ (splitChar ',' s1).length < 4 := by omega
      simp only [fromStr, hs, hpre, h0, hnlt, h3]
      simp
    · intro sc g h0 hge h3 h1
      have hnlt : ¬ (splitChar ',' s1).length < 4 := by omega
      simp only [fromStr, hs, hpre, h0, hnlt, h3, h1]
      simp

/-- Witness for malformed_line_behavior: an unparsable first stats field
yields an error result. -/
theorem malformed_line_behavior_witness :
    fromStr "normal,normal,normal,on,on,on=abc,2,0,50" =
      .err "invalid digit found in string" := by
  have h := (malformed_line_behavior "normal,normal,normal,on,on,on=abc,2,0,50"
    "normal,normal,normal,on,on,on".toList "abc,2,0,50".toList [] (by decide)).2
    (by decide)
  exact h.1 (by decide)

/-- Counterexample to claim C7 as stated: the parser's rejection message
is "Unsupported score entry" with a capital U, not the claimed
"unsupported score entry". -/
theorem unsupported_entry_message_case :
    fromStr "foo" = .err "Unsupported score entry" ∧
    "Unsupported score entry" ≠ "unsupported score entry" := by decide

/-- Claim C7 (amended): every line that does not begin with either of the
two fixed settings prefixes fails with the message "Unsupported score
entry", and inside the driver's per-file chain such a line contributes
one failure message, no import and no database write. -/
theorem unsupported_line_rejected (line : String)
    (h : (isPrefixChars supportedHard.toList line.toList
        || isPrefixChars supportedNormal.toList line.toList) = false) :
    fromStr line = .err "Unsupported score entry" ∧
    ∀ (insert : KsmScore → String → Except String Unit) (path : String),
      lineOutcome insert path line =
        some (["Score parse failed in \"" ++ path ++ "\": Unsupported score entry"],
          0, []) := by
  have hfs : fromStr line = .err "Unsupported score entry" := by
    simp only [fromStr, h]
    simp
  have hcat : "\": " ++ "Unsupported score entry" = "\": Unsupported score entry" := by
    decide
  exact ⟨hfs, fun insert path => by
    simp only [lineOutcome, hfs, String.append_assoc, hcat]⟩

/-- Witness for unsupported_line_rejected on a line with a different
settings profile. -/
theorem unsupported_line_rejected_witness :
    fromStr "hard,hard,normal,on,on,on=100,1,0,50" = .err "Unsupported score entry" ∧
    lineOutcome okInsert "f.ksc" "hard,hard,normal,on,on,on=100,1,0,50" =
      some (["Score parse failed in \"f.ksc\": Unsupported score entry"], 0, []) := by
  have h := unsupported_line_rejected "hard,hard,normal,on,on,on=100,1,0,50" (by decide)
  exact ⟨h.1, h.2 okInsert "f.ksc"⟩

/-- Claim C2: for every score-file path deep enough for the fixed layout,
the resolver returns exactly the spec's transform — extension replaced
by ksh, and, counting positions from the leaf with the leaf at position
1, the component at position 4 dropped and the one at position 5 renamed
to the literal "songs" — when the transformed path exists, and fails
with an error naming that path when it does not; and an inserter failure
is recorded against only that one score entry: one failure message,
no import and no database write for the line, while the per-file chain
continues. -/
theorem chart_path_resolution (ex : List String → Bool) (score_path : List String)
    (h5 : 5 ≤ score_path.length) :
    get_score_chart_path ex score_path =
      (if ex (chartPathSpec score_path) then .ok (chartPathSpec score_path)
       else .error ("File does not exist: \"" ++
         String.intercalate "/" (chartPathSpec score_path) ++ "\"")) ∧
    ∀ (insert : KsmScore → String → Except String Unit) (path line : String)
      (s : KsmScore) (e : String),
      fromStr line = .ok s → insert s path = .error e →
      lineOutcome insert path line = some (["Score insert failed: " ++ e], 0, []) := by
  constructor
  · simp only [get_score_chart_path]
    rw [chartTransform_eq_spec score_path h5]
  · intro insert path line s e hp hi
    simp [lineOutcome, hp, hi]

/-- Witness for chart_path_resolution on a six-component score path over
a filesystem in which every path exists. -/
theorem chart_path_resolution_witness :
    get_score_chart_path (fun _ => true)
        ["ksm", "score", "x", "songfolder", "chartdir", "file.ksc"] =
      .ok ["ksm", "songs", "songfolder", "chartdir", "file.ksh"] := by
  have h := (chart_path_resolution (fun _ => true)
    ["ksm", "score", "x", "songfolder", "chartdir", "file.ksc"] (by decide)).1
  rw [h]
  decide

/-- Claim C8: a cache hit returns the stored digest with no filesystem
access and an unchanged cache; a miss on a readable file reads it once,
stores the digest under the path key and returns it; and a repeated
lookup for the same path after a successful one returns the identical
digest string. -/
theorem hash_file_cache_contract (digest : List Nat → String)
    (fs : String → Except String (List Nat)) (cache : List (String × String))
    (path : String) :
    (∀ d, List.lookup path cache = some d →
        hash_file digest fs cache path = (.ok d, cache, 0)) ∧
    (List.lookup path cache = none →
        ∀ buf, fs path = .ok buf →
          hash_file digest fs cache path =
            (.ok (digest buf), (path, digest buf) :: cache, 1)) ∧
    (∀ out d, hash_file digest fs cache path = out → out.1 = .ok d →
        (hash_file digest fs out.2.1 path).1 = .ok d) := by
  refine ⟨?_, ?_, ?_⟩
  · intro d hd
    simp [hash_file, hd]
  · intro hn buf hb
    simp [hash_file, hn, hb]
  · intro out d hout hd
    rcases hl : List.lookup path cache with _ | v
    · simp only [hash_file, hl] at hout
      rcases hf : fs path with e | buf <;> rw [hf] at hout <;> subst hout
      · simp at hd
      · simp only at hd
        have hdd : digest buf = d := by
          simpa using hd
        simp [hash_file, List.lookup, hdd]
    · simp only [hash_file, hl] at hout
      subst hout
      simp only at hd
      have hdd : v = d := by
        simpa using hd
      subst hdd
      simp [hash_file, hl]

/-- Witness for hash_file_cache_contract: a pre-seeded cache entry is
returned with zero filesystem accesses. -/
theorem hash_file_cache_contract_witness :
    hash_file (fun _ => "h") (fun _ => .ok []) [("p", "d")] "p" =
      (.ok "d", [("p", "d")], 0) :=
  (hash_file_cache_contract (fun _ => "h") (fun _ => .ok []) [("p", "d")] "p").1
    "d" (by decide)

/-- Counterexample to claim C3 as stated: a run whose database open fails
emits a single Errored event; its first event is not Started. -/
theorem run_misses_started_on_db_error :
    trace envDbFail = ([.errored "db boom"], false) ∧
    (trace envDbFail).1.head? ≠ some Progress.started := by decide

/-- Claim C3 (amended): provided no line of any processed file drives the
parser into a panic, the observable event sequence of a run is either a
single Errored with no preceding Started (when the database open or the
enumeration fails), or Started, then zero or more Advanced, terminated
by exactly one Finished or Errored; nothing follows the terminal event,
and no transition leaves the Finished state. -/
theorem run_event_protocol (env : Env)
    (hpf : ∀ f ∈ envFiles env, (processFile env.insert f).isSome) :
    ((∃ m, trace env = ([.errored m], false)) ∨
      (∃ mid last, trace env = (.started :: (mid ++ [last]), false) ∧
        (∀ e ∈ mid, ∃ q, e = Progress.advanced q) ∧
        ((∃ s, last = Progress.finished s) ∨ (∃ m, last = Progress.errored m)))) ∧
    step env .finished = .done := by
  refine ⟨?_, rfl⟩
  rcases hdb : env.dbConn with de | ⟨⟩
  · rcases hsf : env.scoreFiles with ke | fs
    · left
      have hs : step env .ready =
          .yield (.errored ("DB Error: '" ++ de ++ "', KSM Path error: '" ++ ke ++ "'"))
            .finished := by
        simp [step, hdb, hsf]
      have hfuel : fuelFor env = 3 := by simp [fuelFor, hsf]
      refine ⟨"DB Error: '" ++ de ++ "', KSM Path error: '" ++ ke ++ "'", ?_⟩
      rw [trace, hfuel, traceN_yield env hs 2, traceN_finished]
    · left
      have hs : step env .ready = .yield (.errored de) .finished := by
        simp [step, hdb, hsf]
      have hfuel : fuelFor env = fs.length + 3 := by simp [fuelFor, hsf]
      refine ⟨de, ?_⟩
      rw [trace, hfuel, traceN_yield env hs (fs.length + 2), traceN_finished]
  · rcases hsf : env.scoreFiles with ke | fs
    · left
      have hs : step env .ready = .yield (.errored ke) .finished := by
        simp [step, hdb, hsf]
      have hfuel : fuelFor env = 3 := by simp [fuelFor, hsf]
      refine ⟨ke, ?_⟩
      rw [trace, hfuel, traceN_yield env hs 2, traceN_finished]
    · right
      have hpf' : ∀ f ∈ fs, (processFile env.insert f).isSome := by
        have : envFiles env = fs := by simp [envFiles, hsf]
        rw [this] at hpf
        exact hpf
      obtain ⟨mid, last, hml, hmid, hlast⟩ :=
        traceN_importing_any env env.dbVersion fs ⟨fs.length, 0, []⟩
          (fs.length + 2) hpf' le_rfl
      exact ⟨mid, last, by rw [trace_ok env fs hdb hsf, hml], hmid, hlast⟩

/-- Witness for run_event_protocol on a panic-free run over one
unreadable file. -/
theorem run_event_protocol_witness :
    ((∃ m, trace envProto = ([.errored m], false)) ∨
      (∃ mid last, trace envProto = (.started :: (mid ++ [last]), false) ∧
        (∀ e ∈ mid, ∃ q, e = Progress.advanced q) ∧
        ((∃ s, last = Progress.finished s) ∨ (∃ m, last = Progress.errored m)))) ∧
    step envProto .finished = .done :=
  run_event_protocol envProto (by decide)

/-- Counterexample to claim C4 as stated: a run at unsupported schema
version 20 whose enumeration found zero files still emits
Finished(summary) — a summary is produced and no Errored is raised. -/
theorem unsupported_version_empty_finishes :
    trace envVer20Empty = ([.started, .finished ⟨0, 0, []⟩], false) ∧
    Progress.finished ⟨0, 0, []⟩ ∈ (trace envVer20Empty).1 := by decide

/-- Claim C4 (amended): for every run whose database schema version is
not 19 and whose enumeration found at least one file, the driver emits
Errored right after Started and stops: no file is processed (no Advanced
is emitted) and no Finished(summary) is ever produced. -/
theorem unsupported_version_aborts (env : Env) (fs : List ScoreFile)
    (hdb : env.dbConn = .ok ()) (hsf : env.scoreFiles = .ok fs)
    (hne : fs ≠ []) (hv : env.dbVersion ≠ 19) :
    trace env = ([.started,
      .errored ("Unsupported DB version: " ++ toString env.dbVersion)], false) := by
  rw [trace_ok env fs hdb hsf,
    traceN_yield env
      (step_importing_unsupported env env.dbVersion fs ⟨fs.length, 0, []⟩ hne hv)
      (fs.length + 1),
    traceN_finished]

/-- Witness for unsupported_version_aborts at version 20 over one file. -/
theorem unsupported_version_aborts_witness :
    trace envVer20One = ([.started, .errored "Unsupported DB version: 20"], false) := by
  have h := unsupported_version_aborts envVer20One [fileOpenFail] rfl rfl
    (by decide) (by decide)
  rw [h]
  decide

/-- Counterexample to claim C6 as stated: in a run over zero enumerated
files the event immediately preceding Finished is Started, which carries
no fraction at all — in particular it is not Advanced(1.0). -/
theorem empty_run_final_event_not_advanced :
    (trace envRampEmpty).1 = [.started, .finished ⟨0, 0, []⟩] ∧
    Progress.started ≠ Progress.advanced 1 := by decide

/-- Claim C6 (amended): for every panic-free run over N enumerated files
at the supported schema version, after each file the driver emits
Advanced(1 - remaining/N) with N fixed at the Ready-to-Importing
transition, so the full event list is Started, Advanced(1/N) ...
Advanced(N/N), Finished(summary); the Advanced fractions are
non-decreasing, and when N is at least 1 the event immediately preceding
Finished carries fraction 1. -/
theorem advanced_fraction_ramp (env : Env) (fs : List ScoreFile)
    (hdb : env.dbConn = .ok ()) (hsf : env.scoreFiles = .ok fs)
    (hv : env.dbVersion = 19)
    (hpf : ∀ f ∈ fs, (processFile env.insert f).isSome) :
    ∃ final : Summary,
      trace env = (.started :: (ramp fs.length fs.length ++ [.finished final]), false) ∧
      List.Chain' (fun a b => a ≤ b) (advVals (trace env).1) ∧
      (fs ≠ [] → ∃ pre, (trace env).1 = pre ++ [.advanced 1, .finished final]) := by
  obtain ⟨final, hfinal, hfound⟩ :=
    traceN_importing19 env fs.length fs ⟨fs.length, 0, []⟩ (fs.length + 2) rfl hpf le_rfl
  have htr : trace env =
      (.started :: (ramp fs.length fs.length ++ [.finished final]), false) := by
    rw [trace_ok env fs hdb hsf, hv, hfinal]
  refine ⟨final, htr, ?_, ?_⟩
  · rw [htr]
    have hv2 : advVals (.started :: (ramp fs.length fs.length ++ [.finished final])) =
        advVals (ramp fs.length fs.length) := by
      simp [advVals]
    simp only [hv2]
    exact ramp_chain fs.length fs.length
  · intro hne
    obtain ⟨pre, hpre⟩ := ramp_last fs.length fs.length (List.length_pos.mpr hne)
    refine ⟨.started :: pre, ?_⟩
    rw [htr, hpre]
    simp

/-- Witness for advanced_fraction_ramp on a two-file panic-free run. -/
theorem advanced_fraction_ramp_witness :
    ∃ final : Summary,
      trace envRampTwo =
        (.started :: (ramp 2 2 ++ [.finished final]), false) ∧
      List.Chain' (fun a b => a ≤ b) (advVals (trace envRampTwo).1) ∧
      (([fileOpenFail, fileOpenFailB] : List ScoreFile) ≠ [] →
        ∃ pre, (trace envRampTwo).1 = pre ++ [.advanced 1, .finished final]) :=
  advanced_fraction_ramp envRampTwo [fileOpenFail, fileOpenFailB] rfl rfl rfl
    (by decide)

/-- Claim C9: across every Importing-to-Importing step of the driver,
scoresFound never changes, scoresImported grows by exactly the number of
successful inserts of the file popped during the step (in particular it
never decreases), and failMessages is extended only by appending — the
earlier messages stay, in order, as a prefix. -/
theorem importing_summary_invariant (env : Env) (v : Nat) (files : List ScoreFile)
    (summary : Summary) (p : Progress) (v' : Nat) (files' : List ScoreFile)
    (summary' : Summary)
    (h : step env (.importing v files summary) =
      .yield p (.importing v' files' summary')) :
    summary'.scores_found = summary.scores_found ∧
    (∃ f, files.getLast? = some f ∧ files' = files.dropLast ∧
      summary'.scores_imported = summary.scores_imported + fileImported env.insert f) ∧
    (∃ t, summary'.fail_messages = summary.fail_messages ++ t) := by
  by_cases he : files.isEmpty
  · simp [step, he] at h
  · have hne : files ≠ [] := by
      simpa [List.isEmpty_iff] using he
    by_cases hv : v = 19
    · subst hv
      rcases hg : files.getLast? with _ | f
      · simp [step, he, hg] at h
      · rcases hp : processFile env.insert f with _ | r
        · simp [step, he, hg, hp] at h
        · rw [step_importing_pop env files summary f r hg hp] at h
          simp only [StepRes.yield.injEq, MState.importing.injEq] at h
          obtain ⟨hp1, _, hf', hs'⟩ := h
          subst hf'
          subst hs'
          refine ⟨rfl, ?_, ⟨r.1, rfl⟩⟩
          refine ⟨f, rfl, rfl, ?_⟩
          rw [processFile_imported env.insert f r hp]
    · rw [step_importing_unsupported env v files summary hne hv] at h
      simp at h

/-- Witness for importing_summary_invariant at a concrete step that pops
one unreadable file. -/
theorem importing_summary_invariant_witness :
    (⟨1, 0, ["Failed to open \"a.ksc\": io"]⟩ : Summary).scores_found =
      (⟨1, 0, []⟩ : Summary).scores_found ∧
    (∃ f, ([fileOpenFail] : List ScoreFile).getLast? = some f ∧
      ([] : List ScoreFile) = ([fileOpenFail] : List ScoreFile).dropLast ∧
      (⟨1, 0, ["Failed to open \"a.ksc\": io"]⟩ : Summary).scores_imported =
        (⟨1, 0, []⟩ : Summary).scores_imported + fileImported envProto.insert f) ∧
    (∃ t, (⟨1, 0, ["Failed to open \"a.ksc\": io"]⟩ : Summary).fail_messages =
      (⟨1, 0, []⟩ : Summary).fail_messages ++ t) :=
  importing_summary_invariant envProto 19 [fileOpenFail] ⟨1, 0, []⟩
    (.advanced 1) 19 [] ⟨1, 0, ["Failed to open \"a.ksc\": io"]⟩ (by decide)

theorem traceN_importing_nilCase (env : Env) (v : Nat) (summary : Summary) (m : Nat) :
    traceN env (m + 2) (.importing v [] summary) = ([.finished summary], false) := by
  rw [traceN_yield env (step_importing_nil env v summary) (m + 1), traceN_finished]

/-- Claim C10: when enumeration finds zero score files, the run emits
Started and then immediately Finished with the zero summary, whatever
the database schema version is — the empty-worklist check precedes the
version check, so even an unsupported version gets a summary. -/
theorem empty_worklist_finishes (env : Env)
    (hdb : env.dbConn = .ok ()) (hsf : env.scoreFiles = .ok []) :
    trace env = ([.started, .finished ⟨0, 0, []⟩], false) := by
  rw [trace_ok env [] hdb hsf,
    traceN_importing_nilCase env env.dbVersion
      ⟨([] : List ScoreFile).length, 0, []⟩ ([] : List ScoreFile).length]
  rfl

/-- Witness for empty_worklist_finishes at the unsupported schema version
99. -/
theorem empty_worklist_finishes_witness :
    trace envVer99Empty = ([.started, .finished ⟨0, 0, []⟩], false) :=
  empty_worklist_finishes envVer99Empty rfl rfl

end KsmImport
